import Mathlib

/-!
# Verification of the dumpall binary decoders

Shallow embedding of the two binary decoders of this repository:

* `dumpall/thirdparty/dsstore.py` — the `.DS_Store` ("metadata store") decoder:
  the `DataBlock` cursor, the `DS_Store` constructor (header, offset table,
  table of contents), `_block_by_id` and `traverse`;
* `dumpall/thirdparty/gin.py` — the Git index ("staging index") decoder:
  header, entries, extensions and trailing checksum.

Bytes are modelled as `List Nat` (each element a byte value), buffers as lists,
cursors as a buffer together with a position.  Python exceptions become
`Except`-style error values; the unbounded recursion / `while` loops of the
source become fuel-indexed functions, where running out of fuel models
non-termination of the original code.

The file is organised as: all definitions (including the concrete test
buffers), then all theorems.
-/

deriving instance DecidableEq for Except

namespace Dumpall

/-! ## Byte-level primitives -/

/-- Big-endian value of a byte string, as computed by `struct.unpack(">I")`,
`">H"` or `">B"` on a byte string of the matching width. -/
def beVal (l : List Nat) : Nat := l.foldl (fun acc b => acc * 256 + b) 0

/-! ## The `DataBlock` cursor (dsstore.py) -/

/-- Errors raised by the dsstore decoder.  Each constructor corresponds to one
`raise` site (or exception type) of `dsstore.py`; `fuelExhausted` is produced
only by the fuel-indexed model of the unbounded recursion in `traverse`. -/
inductive PErr where
  /-- `ParsingError("Requested length exceeds available data size.")` -/
  | outOfBounds
  /-- `ParsingError("Data length insufficient for header parsing.")` -/
  | headerTooShort
  /-- `ParsingError("Invalid magic bytes in header.")` -/
  | invalidMagic
  /-- `ParsingError("Header offset mismatch.")` -/
  | offsetMismatch
  /-- `ParsingError("Invalid block ID.")` -/
  | invalidBlockId
  /-- `UnicodeDecodeError` from `bytes.decode(...)` -/
  | unicodeError
  /-- fuel ran out: models non-termination of the source recursion -/
  | fuelExhausted
deriving DecidableEq

/-- `DataBlock`: a byte buffer together with the mutable read position. -/
structure DataBlock where
  data : List Nat
  pos : Nat
deriving DecidableEq

/-- `DataBlock.offset_read(length, offset)`: read `length` bytes at the given
absolute `offset`, or at the current position when `offset` is `none`; only the
latter advances the position.  Fails when the requested range exceeds the
buffer. -/
def offset_read (blk : DataBlock) (length : Nat) (offset : Option Nat) :
    Except PErr (List Nat × DataBlock) :=
  let offset_position := offset.getD blk.pos
  if blk.data.length < offset_position + length then
    .error .outOfBounds
  else
    let value := (blk.data.drop offset_position).take length
    match offset with
    | none => .ok (value, ⟨blk.data, blk.pos + length⟩)
    | some _ => .ok (value, blk)

/-- `DataBlock.skip(length)`: advance the position, unconditionally. -/
def skip (blk : DataBlock) (length : Nat) : DataBlock :=
  ⟨blk.data, blk.pos + length⟩

/-! ## Address words (dsstore.py `_block_by_id`) -/

/-- Decode a 32-bit address word from the offset table, as `_block_by_id` does:
`offset = addr & ~0x1F` (the low five bits cleared, written here as a
right-then-left shift, which agrees with Python's `& ~0x1F` on non-negative
integers) and `size = 1 << (addr & 0x1F)`. -/
def decodeAddr (addr : Nat) : Nat × Nat :=
  ((addr >>> 5) <<< 5, 1 <<< (addr &&& 0x1F))

/-- Re-encode a decoded `(offset, size)` pair as `offset | log2(size)`. -/
def encodeAddr (offset size : Nat) : Nat :=
  offset ||| Nat.log2 size

/-! ## Text decoding

Python's `bytes.decode(...)` raises `UnicodeDecodeError` on invalid input.
`utf8Valid` models acceptance by the strict `utf-8` codec (RFC 3629: no
overlong forms, no surrogates, at most U+10FFFF); `utf16Valid` models
acceptance by the `utf-16be` codec on a list of 16-bit code units (no unpaired
surrogates).  Decoded strings are represented by their raw bytes resp. code
units, which is a faithful (injective) representation for valid input. -/

/-- Is `b` a UTF-8 continuation byte? -/
def contB (b : Nat) : Bool := 0x80 ≤ b && b ≤ 0xBF

/-- Consume the continuation bytes of one multi-byte UTF-8 sequence whose
leading byte is `b`; `none` if malformed. -/
def utf8Cont (b : Nat) : List Nat → Option (List Nat)
  | c :: r =>
    if 0xC2 ≤ b ∧ b ≤ 0xDF then
      if contB c then some r else none
    else
      match r with
      | d :: r2 =>
        if b = 0xE0 then
          if (0xA0 ≤ c && c ≤ 0xBF) && contB d then some r2 else none
        else if (0xE1 ≤ b ∧ b ≤ 0xEC) ∨ (0xEE ≤ b ∧ b ≤ 0xEF) then
          if contB c && contB d then some r2 else none
        else if b = 0xED then
          if (0x80 ≤ c && c ≤ 0x9F) && contB d then some r2 else none
        else
          match r2 with
          | e :: r3 =>
            if b = 0xF0 then
              if (0x90 ≤ c && c ≤ 0xBF) && contB d && contB e then some r3 else none
            else if 0xF1 ≤ b ∧ b ≤ 0xF3 then
              if contB c && contB d && contB e then some r3 else none
            else if b = 0xF4 then
              if (0x80 ≤ c && c ≤ 0x8F) && contB d && contB e then some r3 else none
            else none
          | [] => none
      | [] => none
  | [] => none

/-- Fuel-indexed UTF-8 acceptance; each step consumes at least one byte, so
fuel `l.length` always suffices. -/
def utf8Rest : Nat → List Nat → Bool
  | _, [] => true
  | 0, _ :: _ => false
  | fuel + 1, b :: rest =>
    if b ≤ 0x7F then utf8Rest fuel rest
    else
      match utf8Cont b rest with
      | some r => utf8Rest fuel r
      | none => false

/-- Acceptance by Python's strict `utf-8` codec. -/
def utf8Valid (l : List Nat) : Bool := utf8Rest l.length l

/-- Group a byte list into big-endian 16-bit code units, as the `utf-16be`
codec does (the input always has even length at the call site). -/
def toU16BE : List Nat → List Nat
  | a :: b :: r => (a * 256 + b) :: toU16BE r
  | _ => []

/-- Acceptance by Python's `utf-16be` codec on a code-unit list: every high
surrogate is followed by a low surrogate, and no lone low surrogate. -/
def utf16Valid : List Nat → Bool
  | [] => true
  | u :: rest =>
    if 0xD800 ≤ u ∧ u ≤ 0xDBFF then
      match rest with
      | v :: r => decide (0xDC00 ≤ v ∧ v ≤ 0xDFFF) && utf16Valid r
      | [] => false
    else if 0xDC00 ≤ u ∧ u ≤ 0xDFFF then false
    else utf16Valid rest

/-! ## Filename records (dsstore.py `DataBlock.read_filename`) -/

/-- `DataBlock._calculate_skip_length(structure_type)`: the byte count to skip
for a structure-type tag — `"bool"` → 1, `"long"` → 4, `"blob"` → a further
32-bit length read from the cursor, anything else → 0. -/
def calcSkipLength (blk : DataBlock) (tag : List Nat) : Except PErr (Nat × DataBlock) :=
  if tag = [0x62, 0x6F, 0x6F, 0x6C] then .ok (1, blk)        -- "bool"
  else if tag = [0x6C, 0x6F, 0x6E, 0x67] then .ok (4, blk)   -- "long"
  else if tag = [0x62, 0x6C, 0x6F, 0x62] then               -- "blob"
    match offset_read blk 4 none with
    | .error e => .error e
    | .ok (b, blk2) => .ok (beVal b, blk2)
  else .ok (0, blk)

/-- `DataBlock.read_filename()`: a 32-bit character count, that many UTF-16BE
code units (read as `2 * length` bytes), a 32-bit structure id (discarded), a
4-byte structure-type tag, then a tag-dependent skip.  The returned filename
is represented by its code-unit list. -/
def read_filename (blk : DataBlock) : Except PErr (List Nat × DataBlock) :=
  match offset_read blk 4 none with
  | .error e => .error e
  | .ok (lb, b1) =>
    match offset_read b1 (beVal lb * 2) none with
    | .error e => .error e
    | .ok (sb, b2) =>
      let units := toU16BE sb
      if utf16Valid units then
        match offset_read b2 4 none with
        | .error e => .error e
        | .ok (_idb, b3) =>
          match offset_read b3 4 none with
          | .error e => .error e
          | .ok (tagB, b4) =>
            if utf8Valid tagB then
              match calcSkipLength b4 tagB with
              | .error e => .error e
              | .ok (skipLen, b5) => .ok (units, skip b5 skipLen)
            else .error .unicodeError
      else .error .unicodeError

/-- Read `count` filename records in sequence (the list comprehension in
`DS_Store.traverse`). -/
def readFilenames (blk : DataBlock) : Nat → Except PErr (List (List Nat) × DataBlock)
  | 0 => .ok ([], blk)
  | n + 1 =>
    match read_filename blk with
    | .error e => .error e
    | .ok (f, b1) =>
      match readFilenames b1 n with
      | .error e => .error e
      | .ok (rest, b2) => .ok (f :: rest, b2)

/-! ## The `DS_Store` decoder -/

/-- Read `count` big-endian 32-bit words in sequence (the list comprehension
in `DS_Store._read_offsets`). -/
def readU32s (blk : DataBlock) : Nat → Except PErr (List Nat × DataBlock)
  | 0 => .ok ([], blk)
  | n + 1 =>
    match offset_read blk 4 none with
    | .error e => .error e
    | .ok (b, blk1) =>
      match readU32s blk1 n with
      | .error e => .error e
      | .ok (rest, blk2) => .ok (beVal b :: rest, blk2)

/-- Read `count` table-of-contents entries (the loop in
`DS_Store._read_toc`): a 1-byte name length, the ASCII/UTF-8 name, a 32-bit
block id.  Represented as an association list in file order; Python's `dict`
lets a later duplicate name win on lookup. -/
def readTocEntries (blk : DataBlock) : Nat → Except PErr (List (List Nat × Nat) × DataBlock)
  | 0 => .ok ([], blk)
  | n + 1 =>
    match offset_read blk 1 none with
    | .error e => .error e
    | .ok (lb, blk1) =>
      match offset_read blk1 (beVal lb) none with
      | .error e => .error e
      | .ok (nameB, blk2) =>
        if utf8Valid nameB then
          match offset_read blk2 4 none with
          | .error e => .error e
          | .ok (idb, blk3) =>
            match readTocEntries blk3 n with
            | .error e => .error e
            | .ok (rest, blk4) => .ok ((nameB, beVal idb) :: rest, blk4)
        else .error .unicodeError

/-- The parsed `DS_Store` object: the raw input buffer, the main cursor's
(`self.block`) final position, the root-table buffer carved by
`_read_header` (`self.header`), the offset table and the table of
contents. -/
structure DS_Store where
  data : List Nat
  blockPos : Nat
  header : DataBlock
  offsets : List Nat
  toc : List (List Nat × Nat)
deriving DecidableEq

/-- `DS_Store.__init__`: header validation (`_read_header`), then the offset
table (`_read_offsets`), then the table of contents (`_read_toc`).  Note that
`_read_offsets` and `_read_toc` read from the main cursor `self.block`, which
after the header sits at byte 36; the root-table buffer carved at
`root-offset + 4` is stored as `self.header` but never read again. -/
def DS_Store.build (data : List Nat) : Except PErr DS_Store :=
  let block0 : DataBlock := ⟨data, 0⟩
  -- _read_header
  if data.length < 36 then .error .headerTooShort
  else
    match offset_read block0 8 none with
    | .error e => .error e
    | .ok (m, block1) =>
      if beVal (m.take 4) = 0x1 ∧ beVal (m.drop 4) = 0x42756431 then
        match offset_read block1 12 none with
        | .error e => .error e
        | .ok (ob, block2) =>
          let off := beVal (ob.take 4)
          let size := beVal ((ob.drop 4).take 4)
          let off2 := beVal (ob.drop 8)
          if off = off2 then
            let block3 := skip block2 16
            match offset_read block3 size (some (off + 4)) with
            | .error e => .error e
            | .ok (hb, block4) =>
              -- _read_offsets: note the reads continue on the main cursor
              match offset_read block4 4 none with
              | .error e => .error e
              | .ok (cb, block5) =>
                let block6 := skip block5 4   -- "Always zero"
                match readU32s block6 (beVal cb) with
                | .error e => .error e
                | .ok (offs, block7) =>
                  -- _read_toc: likewise on the main cursor
                  match offset_read block7 4 none with
                  | .error e => .error e
                  | .ok (tb, block8) =>
                    match readTocEntries block8 (beVal tb) with
                    | .error e => .error e
                    | .ok (toc, block9) =>
                      .ok ⟨data, block9.pos, ⟨hb, 0⟩, offs, toc⟩
          else .error .offsetMismatch
      else .error .invalidMagic

/-- `DS_Store._block_by_id(block_id)`: bounds-check the id against the offset
table, decode the address word, and carve `size` bytes at absolute offset
`offset + 4` of the main cursor's buffer (`self.block`, i.e. the whole input
buffer). -/
def DS_Store.block_by_id (s : DS_Store) (block_id : Nat) : Except PErr DataBlock :=
  if s.offsets.length ≤ block_id then .error .invalidBlockId
  else
    let addr := s.offsets.getD block_id 0
    let off := (decodeAddr addr).1
    let size := (decodeAddr addr).2
    match offset_read ⟨s.data, s.blockPos⟩ size (some (off + 4)) with
    | .error e => .error e
    | .ok (v, _) => .ok ⟨v, 0⟩

/-- `DS_Store.traverse(block_id)`, fuel-indexed: resolve the block, read the
32-bit forward pointer and record count, read that many filename records, and
recurse on a nonzero forward pointer.  Running out of fuel models the
unbounded recursion of the source. -/
def DS_Store.traverseFuel (s : DS_Store) : Nat → Nat → Except PErr (List (List Nat))
  | 0, _ => .error .fuelExhausted
  | fuel + 1, block_id =>
    match s.block_by_id block_id with
    | .error e => .error e
    | .ok node =>
      match offset_read node 8 none with
      | .error e => .error e
      | .ok (hb, node1) =>
        let next := beVal (hb.take 4)
        let count := beVal (hb.drop 4)
        match readFilenames node1 count with
        | .error e => .error e
        | .ok (names, _) =>
          if next > 0 then
            match s.traverseFuel fuel next with
            | .error e => .error e
            | .ok rest => .ok (names ++ rest)
          else .ok names

/-- The forward pointer and filename records of a single block, when that
block parses: the one-block reading step of `traverse`. -/
def DS_Store.blockRecords (s : DS_Store) (block_id : Nat) :
    Option (Nat × List (List Nat)) :=
  match s.block_by_id block_id with
  | .error _ => none
  | .ok node =>
    match offset_read node 8 none with
    | .error _ => none
    | .ok (hb, node1) =>
      match readFilenames node1 (beVal (hb.drop 4)) with
      | .error _ => none
      | .ok (names, _) => some (beVal (hb.take 4), names)

/-- A well-formed record chain starting at `id` that yields `names`: each
block parses, blocks are visited in forward-pointer order, the chain stops at
forward pointer 0, and the yield is the concatenation of the per-block record
lists. -/
inductive Chain (s : DS_Store) : Nat → List (List Nat) → Prop where
  | last {id : Nat} {names : List (List Nat)} :
      s.blockRecords id = some (0, names) → Chain s id names
  | step {id next : Nat} {names rest : List (List Nat)} :
      s.blockRecords id = some (next, names) → 0 < next →
      Chain s next rest → Chain s id (names ++ rest)

/-- `traverse` diverges from `id`: every amount of fuel is exhausted. -/
def TraverseStuck (s : DS_Store) (id : Nat) : Prop :=
  ∀ fuel, s.traverseFuel fuel id = .error .fuelExhausted

/-! ## The staging-index decoder (gin.py) -/

/-- The `mmap` handle: the file bytes and the current position. -/
structure GState where
  buf : List Nat
  pos : Nat
deriving DecidableEq

/-- `mmap.read(n)`: return up to `n` bytes from the current position —
truncated at end of the buffer, never an error — and advance the position by
the number of bytes actually returned.  `f.tell()` is `pos`; `len(f)` is
`buf.length`. -/
def mread (st : GState) (n : Nat) : List Nat × GState :=
  let v := (st.buf.drop st.pos).take n
  (v, ⟨st.buf, st.pos + v.length⟩)

/-- Outcomes that abort `GitIndexParser.parse`. -/
inductive GErr where
  /-- `struct.error`: `struct.unpack` applied to too few bytes -/
  | structError
  /-- `UnicodeDecodeError` from `bytes.decode("ascii")` -/
  | decodeError
  /-- `sys.exit(code)` raised by `Logger.check`: terminates the process -/
  | exit (code : Nat)
  /-- fuel ran out: models non-termination of a source loop -/
  | fuelOut
deriving DecidableEq

/-- `bytes.decode("ascii")` succeeds exactly when every byte is below 0x80. -/
def asciiOK (l : List Nat) : Bool := l.all (fun b => b < 128)

/-- `read("I")`: `struct.unpack("!I", f.read(4))` — `struct.error` when fewer
than 4 bytes remain. -/
def readU32g (st : GState) : Except GErr (Nat × GState) :=
  let r := mread st 4
  if r.1.length = 4 then .ok (beVal r.1, r.2) else .error .structError

/-- `read("H")`: `struct.unpack("!H", f.read(2))`. -/
def readU16g (st : GState) : Except GErr (Nat × GState) :=
  let r := mread st 2
  if r.1.length = 2 then .ok (beVal r.1, r.2) else .error .structError

/-- One record yielded by `GitIndexParser.parse`.  `mode` is kept numeric
(the source renders it as a 6-digit octal string); `sha1` fields and names
are kept as raw bytes (the source renders them as hex resp. UTF-8 with
replacement, both injective presentations). -/
inductive GItem where
  | header (signature : List Nat) (version entries : Nat)
  | entry (entryNum ctimeS ctimeNs mtimeS mtimeNs dev ino mode uid gid size : Nat)
      (sha1 : List Nat) (flags : Nat) (name : List Nat)
  | extension (signature : List Nat) (size : Nat) (payload : List Nat)
  | checksum (sha1 : List Nat)
deriving DecidableEq

/-- The `while` loop of `GitIndexParser._read_name`, fuel-indexed: read one
byte at a time until the byte equals zero.  At end of buffer `f.read(1)`
returns the empty byte string, which differs from a zero byte, so the loop
body repeats with an unchanged state: fuel exhaustion models that
divergence. -/
def readNameLoop (st : GState) (acc : List (List Nat)) :
    Nat → Except GErr (List Nat × GState)
  | 0 => .error .fuelOut
  | fuel + 1 =>
    let r := mread st 1
    if r.1 = [0] then .ok (acc.flatten, r.2)
    else readNameLoop r.2 (acc ++ [r.1]) fuel

/-- `GitIndexParser._read_name(f, flags)`: the low 12 bits of `flags` give the
name length; below `0xFFF` the name is `f.read(namelen)` (truncated at end of
buffer, decoded with replacement — kept as raw bytes here); at `0xFFF` bytes
are read one at a time until a zero byte. -/
def readName (st : GState) (flags : Nat) (fuel : Nat) :
    Except GErr (List Nat × GState) :=
  let namelen := flags &&& 0xFFF
  if namelen < 0xFFF then
    let r := mread st namelen
    .ok (r.1, r.2)
  else readNameLoop st [] fuel

/-- `GitIndexParser._parse_entry`: ten 32-bit fields, a 20-byte hash, a 16-bit
flags word, then the name. -/
def parseEntry (st : GState) (entryNum fuel : Nat) : Except GErr (GItem × GState) :=
  match readU32g st with
  | .error e => .error e
  | .ok (cs, st1) =>
  match readU32g st1 with
  | .error e => .error e
  | .ok (cns, st2) =>
  match readU32g st2 with
  | .error e => .error e
  | .ok (ms, st3) =>
  match readU32g st3 with
  | .error e => .error e
  | .ok (mns, st4) =>
  match readU32g st4 with
  | .error e => .error e
  | .ok (dev, st5) =>
  match readU32g st5 with
  | .error e => .error e
  | .ok (ino, st6) =>
  match readU32g st6 with
  | .error e => .error e
  | .ok (mode, st7) =>
  match readU32g st7 with
  | .error e => .error e
  | .ok (uid, st8) =>
  match readU32g st8 with
  | .error e => .error e
  | .ok (gid, st9) =>
  match readU32g st9 with
  | .error e => .error e
  | .ok (size, st10) =>
  let rsha := mread st10 20
  match readU16g rsha.2 with
  | .error e => .error e
  | .ok (flags, st12) =>
  match readName st12 flags fuel with
  | .error e => .error e
  | .ok (name, st13) =>
    .ok (.entry entryNum cs cns ms mns dev ino mode uid gid size rsha.1 flags name, st13)

/-- The entry loop of `parse`: `k` entries starting at number `entryNum`,
yielding the entries read before any failure. -/
def parseEntries (fuel : Nat) : GState → Nat → Nat → List GItem × GState × Option GErr
  | st, _, 0 => ([], st, none)
  | st, entryNum, k + 1 =>
    match parseEntry st entryNum fuel with
    | .error e => ([], st, some e)
    | .ok (it, st') =>
      match parseEntries fuel st' (entryNum + 1) k with
      | (its, st'', r) => (it :: its, st'', r)

/-- `GitIndexParser._parse_extension`: a 4-byte ASCII signature, a 32-bit
size, and `f.read(size)` bytes of payload (truncated at end of buffer). -/
def parseExt (st : GState) : Except GErr (GItem × GState) :=
  let rsig := mread st 4
  if asciiOK rsig.1 then
    match readU32g rsig.2 with
    | .error e => .error e
    | .ok (size, st2) =>
      let rdata := mread st2 size
      .ok (.extension rsig.1 size rdata.1, rdata.2)
  else .error .decodeError

/-- The extension loop of `parse`: `while f.tell() < len(f) - 20`, with the
Python comparison rendered in truncated `Nat` subtraction (equivalent, since
`f.tell()` is non-negative). -/
def parseExts (st : GState) : Nat → List GItem × GState × Option GErr
  | 0 => ([], st, some .fuelOut)
  | fuel + 1 =>
    if st.pos < st.buf.length - 20 then
      match parseExt st with
      | .error e => ([], st, some e)
      | .ok (it, st') =>
        match parseExts st' fuel with
        | (its, st'', r) => (it :: its, st'', r)
    else ([], st, none)

/-- `GitIndexParser.parse`: header (signature, version, entry count), the
entries, the extensions, the trailing checksum.  The result is the list of
records yielded before completion or failure, together with the outcome;
`Logger.check` failures are `sys.exit(1)`, i.e. `GErr.exit 1`. -/
def parseGin (buf : List Nat) (fuel : Nat) : List GItem × Option GErr :=
  let st0 : GState := ⟨buf, 0⟩
  let rsig := mread st0 4
  if ¬ asciiOK rsig.1 then ([], some .decodeError)
  else if rsig.1 ≠ [68, 73, 82, 67] then ([], some (.exit 1))  -- "DIRC"
  else
    match readU32g rsig.2 with
    | .error e => ([], some e)
    | .ok (version, st2) =>
      if version ≠ 2 ∧ version ≠ 3 then ([], some (.exit 1))
      else
        match readU32g st2 with
        | .error e => ([], some e)
        | .ok (nentries, st3) =>
          let hdr := GItem.header rsig.1 version nentries
          match parseEntries fuel st3 1 nentries with
          | (its, _, some e) => (hdr :: its, some e)
          | (its, st4, none) =>
            match parseExts st4 fuel with
            | (exts, _, some e) => (hdr :: (its ++ exts), some e)
            | (exts, st5, none) =>
              let rcs := mread st5 20
              (hdr :: (its ++ exts ++ [GItem.checksum rcs.1]), none)

/-- `_read_name`'s zero-terminated loop diverges from `st`: every amount of
fuel is exhausted (the state repeats). -/
def ReadNameStuck (st : GState) : Prop :=
  ∀ fuel acc, readNameLoop st acc fuel = .error .fuelOut

/-! ## Concrete test buffers -/

/-- An 80-byte metadata store: valid magic, root-offset 60, root-size 16; the
bytes right after the 36-byte header (read by `_read_offsets`/`_read_toc`)
describe one address word `34`; the carved root-table buffer at bytes 64..80
describes one address word `66`. -/
def c2data : List Nat :=
  [0, 0, 0, 1, 0x42, 0x75, 0x64, 0x31] ++
  [0, 0, 0, 60, 0, 0, 0, 16, 0, 0, 0, 60] ++
  List.replicate 16 0 ++
  [0, 0, 0, 1] ++          -- offset count, at byte 36 (main cursor)
  [0, 0, 0, 0] ++          -- reserved word
  [0, 0, 0, 34] ++         -- address word, at byte 44 (main cursor)
  [0, 0, 0, 0] ++          -- ToC entry count
  List.replicate 12 0 ++
  [0, 0, 0, 1, 0, 0, 0, 0, 0, 0, 0, 66, 0, 0, 0, 0]  -- the carved root table

/-- The store that `DS_Store.build c2data` produces. -/
def c2store : DS_Store :=
  ⟨c2data, 52, ⟨[0, 0, 0, 1, 0, 0, 0, 0, 0, 0, 0, 66, 0, 0, 0, 0], 0⟩, [34], []⟩

/-- A store whose block 0 (address word 67: offset 64, size 8) holds forward
pointer 0 and record count 0. -/
def emptyChainStore : DS_Store :=
  ⟨List.replicate 76 0, 0, ⟨[], 0⟩, [67], []⟩

/-- A store with a two-block chain: block 0 (address word 37: offset 32,
size 32) holds forward pointer 1 and one record with name `"a"`; block 1
(address word 69: offset 64, size 32) holds forward pointer 0 and one record
with name `"b"`. -/
def twoChainStore : DS_Store :=
  ⟨List.replicate 36 0 ++
     [0, 0, 0, 1, 0, 0, 0, 1, 0, 0, 0, 1, 0, 97, 0, 0, 0, 0, 98, 111, 111, 108] ++
     List.replicate 10 0 ++
     [0, 0, 0, 0, 0, 0, 0, 1, 0, 0, 0, 1, 0, 98, 0, 0, 0, 0, 98, 111, 111, 108] ++
     List.replicate 10 0,
   0, ⟨[], 0⟩, [37, 69], []⟩

/-- A store whose block 1 (address word 67: offset 64, size 8) holds forward
pointer 1 — pointing back to itself — and record count 0. -/
def loopStore : DS_Store :=
  ⟨List.replicate 68 0 ++ [0, 0, 0, 1] ++ List.replicate 4 0, 0, ⟨[], 0⟩, [0, 67], []⟩

/-- A 74-byte staging index: `DIRC`, version 2, one entry whose flags word is
`0x0FFF` and whose name field is cut off at end of file — no zero byte
follows, so `_read_name`'s loop never terminates. -/
def c4buf : List Nat :=
  [68, 73, 82, 67, 0, 0, 0, 2, 0, 0, 0, 1] ++ List.replicate 60 0 ++ [15, 255]

/-- A 76-byte staging index: `DIRC`, version 2, one entry whose flags word
says name length 5 but with only the two bytes `"ab"` remaining. -/
def c8buf : List Nat :=
  [68, 73, 82, 67, 0, 0, 0, 2, 0, 0, 0, 1] ++ List.replicate 60 0 ++ [0, 5] ++ [97, 98]

/-- A 53-byte staging index: `DIRC`, version 2, no entries, one extension
whose declared size 100 exceeds the 13 bytes available before the final
20-byte checksum region (filled with the marker byte 7). -/
def c5buf : List Nat :=
  [68, 73, 82, 67, 0, 0, 0, 2, 0, 0, 0, 0] ++
  [84, 82, 69, 69] ++ [0, 0, 0, 100] ++
  List.replicate 13 0 ++ List.replicate 20 7

/-! ## Helper lemmas on the cursor -/

/-- Closed form of an absolute (`peek`-style) read. -/
theorem offset_read_abs (blk : DataBlock) (n off : Nat) :
    offset_read blk n (some off) =
      if blk.data.length < off + n then .error .outOfBounds
      else .ok ((blk.data.drop off).take n, blk) := by
  unfold offset_read
  simp only [Option.getD]

/-- Closed form of a sequential read. -/
theorem offset_read_seq (blk : DataBlock) (n : Nat) :
    offset_read blk n none =
      if blk.data.length < blk.pos + n then .error .outOfBounds
      else .ok ((blk.data.drop blk.pos).take n, ⟨blk.data, blk.pos + n⟩) := by
  unfold offset_read
  simp only [Option.getD]

/-- The only error a cursor read ever produces is `outOfBounds`. -/
theorem offset_read_error_eq (blk : DataBlock) (n : Nat) (off : Option Nat)
    (e : PErr) (h : offset_read blk n off = .error e) : e = .outOfBounds := by
  cases off with
  | none =>
    rw [offset_read_seq] at h
    split at h
    · injection h with h'
      exact h'.symm
    · simp at h
  | some o =>
    rw [offset_read_abs] at h
    split at h
    · injection h with h'
      exact h'.symm
    · simp at h

/-! ## Claim C6 — cursor reads -/

/-- Claim C6: for every cursor state and requested length `n`, a read fails
with the out-of-bounds error exactly when `position + n` (for a sequential
read) resp. `offset + n` (for an absolute read) exceeds the buffer length;
otherwise it returns exactly `n` bytes, a sequential read advances the
position by exactly `n`, and an absolute read leaves the cursor unchanged. -/
theorem offset_read_correct (blk : DataBlock) (n : Nat) :
    (offset_read blk n none = .error .outOfBounds ↔ blk.data.length < blk.pos + n) ∧
    (∀ off : Nat,
      offset_read blk n (some off) = .error .outOfBounds ↔ blk.data.length < off + n) ∧
    (blk.pos + n ≤ blk.data.length →
      offset_read blk n none = .ok ((blk.data.drop blk.pos).take n, ⟨blk.data, blk.pos + n⟩) ∧
      ((blk.data.drop blk.pos).take n).length = n) ∧
    (∀ off : Nat, off + n ≤ blk.data.length →
      offset_read blk n (some off) = .ok ((blk.data.drop off).take n, blk)) := by
  refine ⟨?_, ?_, ?_, ?_⟩
  · rw [offset_read_seq]
    split <;> simp_all
  · intro off
    rw [offset_read_abs]
    split <;> simp_all
  · intro h
    rw [offset_read_seq, if_neg (by omega)]
    refine ⟨rfl, ?_⟩
    rw [List.length_take, List.length_drop]
    omega
  · intro off h
    rw [offset_read_abs, if_neg (by omega)]

/-- Witness for C6 at a concrete cursor. -/
theorem offset_read_correct_witness :
    (offset_read ⟨[10, 20, 30], 1⟩ 2 none = .ok ([20, 30], ⟨[10, 20, 30], 3⟩)) ∧
    (offset_read ⟨[10, 20, 30], 1⟩ 2 (some 0) = .ok ([10, 20], ⟨[10, 20, 30], 1⟩)) ∧
    (offset_read ⟨[10, 20, 30], 1⟩ 3 none = .error .outOfBounds) := by
  refine ⟨?_, ?_, ?_⟩
  · have h := ((offset_read_correct ⟨[10, 20, 30], 1⟩ 2).2.2.1 (by decide)).1
    simpa using h
  · have h := (offset_read_correct ⟨[10, 20, 30], 1⟩ 2).2.2.2 0 (by decide)
    simpa using h
  · exact ((offset_read_correct ⟨[10, 20, 30], 1⟩ 3).1).2 (by decide)

/-! ## Claim C10 — `skip` is unchecked -/

/-- Claim C10: `skip(n)` advances the position by `n` unconditionally, with no
bounds check and no error, so the position may exceed the buffer length; any
subsequent sequential read from an over-skipped position fails with the
out-of-bounds error, and only a successful sequential read re-establishes
`position ≤ buffer length`. -/
theorem skip_unchecked (blk : DataBlock) (n : Nat) :
    ((skip blk n).pos = blk.pos + n ∧ (skip blk n).data = blk.data) ∧
    (blk.data.length < blk.pos + n →
      ∀ m, offset_read (skip blk n) m none = .error .outOfBounds) ∧
    (∀ m v blk', offset_read blk m none = .ok (v, blk') → blk'.pos ≤ blk.data.length) := by
  refine ⟨⟨rfl, rfl⟩, ?_, ?_⟩
  · intro h m
    rw [offset_read_seq]
    rw [if_pos (by simp only [skip]; omega)]
  · intro m v blk' h
    rw [offset_read_seq] at h
    split at h
    · exact absurd h (by simp)
    · simp only [Except.ok.injEq, Prod.mk.injEq] at h
      have := h.2
      subst this
      simp only []
      omega

/-- Witness for C10: skipping beyond the end succeeds and leaves the cursor
over-skipped; the next sequential read fails. -/
theorem skip_unchecked_witness :
    (skip ⟨[1, 2], 0⟩ 5).pos = 5 ∧
    offset_read (skip ⟨[1, 2], 0⟩ 5) 0 none = .error .outOfBounds := by
  constructor
  · exact (skip_unchecked ⟨[1, 2], 0⟩ 5).1.1
  · exact (skip_unchecked ⟨[1, 2], 0⟩ 5).2.1 (by decide) 0

/-! ## Claim C9 — address words -/

theorem lor_mul_32 (q r : Nat) (h : r < 32) : (q * 32) ||| r = q * 32 + r := by
  have h5 : r < 2 ^ 5 := by omega
  have h32 : q * 32 = 2 ^ 5 * q := by ring
  rw [h32]
  apply Nat.eq_of_testBit_eq
  intro j
  rw [Nat.testBit_or, Nat.testBit_mul_pow_two, Nat.testBit_mul_pow_two_add q h5 j]
  rcases Nat.lt_or_ge j 5 with hj | hj
  · simp [hj, Nat.not_le_of_lt hj]
  · have hr : r.testBit j = false :=
      Nat.testBit_lt_two_pow (Nat.lt_of_lt_of_le h5 (Nat.pow_le_pow_right (by norm_num) hj))
    simp [hj, hr, Nat.not_lt_of_le hj]

theorem and_31_eq_mod (a : Nat) : a &&& 31 = a % 32 := by
  have := Nat.and_pow_two_sub_one_eq_mod a 5
  norm_num at this
  exact this

/-- Claim C9: for every 32-bit address word `a`, the decoded pair satisfies
`size = 1 << (a & 0x1F)` and `offset = a & ~0x1F` (low five bits cleared), and
re-encoding the decoded pair as `offset | log2(size)` yields `a` again. -/
theorem decode_encode_addr (a : Nat) (h : a < 2 ^ 32) :
    (decodeAddr a).2 = 1 <<< (a &&& 0x1F) ∧
    (decodeAddr a).1 = (a >>> 5) <<< 5 ∧
    encodeAddr (decodeAddr a).1 (decodeAddr a).2 = a := by
  refine ⟨rfl, rfl, ?_⟩
  unfold decodeAddr encodeAddr
  have hshift : (a >>> 5) <<< 5 = a / 32 * 32 := by
    rw [Nat.shiftRight_eq_div_pow, Nat.shiftLeft_eq]
  have hone : (1 : Nat) <<< (a &&& 0x1F) = 2 ^ (a % 32) := by
    rw [Nat.shiftLeft_eq, Nat.one_mul]
    norm_num [and_31_eq_mod a]
  have hlog : Nat.log2 (2 ^ (a % 32)) = a % 32 := by
    rw [Nat.log2_eq_log_two, Nat.log_pow Nat.one_lt_two]
  rw [hshift, hone, hlog, lor_mul_32 (a / 32) (a % 32) (Nat.mod_lt a (by norm_num))]
  omega

/-- Witness for C9 at the concrete address word `0x1045`. -/
theorem decode_encode_addr_witness :
    decodeAddr 0x1045 = (0x1040, 32) ∧
    encodeAddr (decodeAddr 0x1045).1 (decodeAddr 0x1045).2 = 0x1045 := by
  constructor
  · decide
  · exact (decode_encode_addr 0x1045 (by norm_num)).2.2

/-! ## Traversal helpers -/

/-- One unfolding of `traverse` at a block whose records parse. -/
theorem traverseFuel_succ_of_blockRecords {s : DS_Store} {id next : Nat}
    {names : List (List Nat)} (fuel : Nat)
    (h : s.blockRecords id = some (next, names)) :
    s.traverseFuel (fuel + 1) id =
      if 0 < next then
        match s.traverseFuel fuel next with
        | .error e => .error e
        | .ok rest => .ok (names ++ rest)
      else .ok names := by
  unfold DS_Store.blockRecords at h
  simp only [DS_Store.traverseFuel]
  cases hb : s.block_by_id id with
  | error e => simp [hb] at h
  | ok node =>
    simp only [hb] at h ⊢
    cases hr : offset_read node 8 none with
    | error e => simp [hr] at h
    | ok p =>
      obtain ⟨hbb, node1⟩ := p
      simp only [hr] at h ⊢
      cases hf : readFilenames node1 (beVal (hbb.drop 4)) with
      | error e => simp [hf] at h
      | ok q =>
        obtain ⟨nm, blk⟩ := q
        simp only [hf] at h ⊢
        simp only [Option.some.injEq, Prod.mk.injEq] at h
        obtain ⟨hnext, hnames⟩ := h
        subst hnext hnames
        rfl

/-- A well-formed chain is traversed completely with enough fuel, yielding
exactly the concatenation of the per-block record lists. -/
theorem chain_traverse {s : DS_Store} {id : Nat} {names : List (List Nat)}
    (h : Chain s id names) : ∃ fuel, s.traverseFuel fuel id = .ok names := by
  induction h with
  | last h0 =>
    refine ⟨1, ?_⟩
    have h1 := traverseFuel_succ_of_blockRecords 0 h0
    norm_num at h1
    exact h1
  | step h0 hpos _ ih =>
    obtain ⟨f, hf⟩ := ih
    refine ⟨f + 1, ?_⟩
    rw [traverseFuel_succ_of_blockRecords f h0, if_pos hpos, hf]

/-! ## Claim C1 — block resolution -/

/-- Claim C1 (amended): `block_by_id` fails with the invalid-block-id error
exactly when `id ≥ len(offset_table)`; otherwise, with `a` the address word,
it carves a sub-cursor of exactly `1 << (a & 0x1F)` bytes at byte offset
`(a & ~0x1F) + 4` **within the decoder's whole input buffer** (`self.block`'s
buffer) — not within the root-table buffer — failing with the out-of-bounds
error when that range exceeds the input. -/
theorem block_by_id_spec (s : DS_Store) (id : Nat) :
    (s.block_by_id id = .error .invalidBlockId ↔ s.offsets.length ≤ id) ∧
    (id < s.offsets.length →
      s.block_by_id id =
        if s.data.length <
            (decodeAddr (s.offsets.getD id 0)).1 + 4 + (decodeAddr (s.offsets.getD id 0)).2
        then .error .outOfBounds
        else .ok ⟨(s.data.drop ((decodeAddr (s.offsets.getD id 0)).1 + 4)).take
                    ((decodeAddr (s.offsets.getD id 0)).2), 0⟩) := by
  constructor
  · constructor
    · intro h
      by_contra hlt
      push_neg at hlt
      simp only [DS_Store.block_by_id, offset_read_abs] at h
      rw [if_neg (by omega)] at h
      by_cases hc : s.data.length <
          (decodeAddr (s.offsets.getD id 0)).1 + 4 + (decodeAddr (s.offsets.getD id 0)).2
      · rw [if_pos hc] at h
        simp at h
      · rw [if_neg hc] at h
        simp at h
    · intro h
      unfold DS_Store.block_by_id
      rw [if_pos h]
  · intro h
    simp only [DS_Store.block_by_id, offset_read_abs]
    rw [if_neg (by omega)]
    by_cases hc : s.data.length <
        (decodeAddr (s.offsets.getD id 0)).1 + 4 + (decodeAddr (s.offsets.getD id 0)).2
    · rw [if_pos hc, if_pos hc]
    · rw [if_neg hc, if_neg hc]

/-- Witness for C1 on the parsed store of `c2data`. -/
theorem block_by_id_spec_witness :
    c2store.block_by_id 0 = .ok ⟨[0, 0, 0, 1], 0⟩ ∧
    (c2store.block_by_id 1 = .error .invalidBlockId ↔ 1 ≤ 1) := by
  constructor
  · have h := (block_by_id_spec c2store 0).2 (by decide)
    rw [h]
    decide
  · exact (block_by_id_spec c2store 1).1

/-- Claim C1 counterexample: on the parsed store of `c2data`, resolving block
0 (address word 34: offset 32, size 4) returns the bytes `00 00 00 01` found
at offset `32 + 4` of the **whole input buffer**; the root-table buffer
carved in construction step (b) is only 16 bytes long, so the claimed carve
at offset `32 + 4` within it is impossible (it yields no bytes at all). -/
theorem block_carve_not_in_root :
    DS_Store.build c2data = .ok c2store ∧
    c2store.block_by_id 0 = .ok ⟨[0, 0, 0, 1], 0⟩ ∧
    decodeAddr 34 = (32, 4) ∧
    (c2data.drop (32 + 4)).take 4 = [0, 0, 0, 1] ∧
    c2store.header.data.length = 16 ∧
    (c2store.header.data.drop (32 + 4)).take 4 = [] := by decide

/-! ## Claim C2 — metadata-store construction -/

/-- Claim C2 (code-bug evidence): construction on `c2data` succeeds and
returns offset table `[34]` — the address word read from the main file
cursor at byte 44, right after the 36-byte header — although the carved
root-table buffer (bytes 64..80 of the input, stored as `self.header` and
never read again) holds the address word 66 at the position construction
steps (c)/(d) describe.  So steps (c) and (d) do not read from the
root-table buffer. -/
theorem construction_reads_main_cursor :
    DS_Store.build c2data = .ok c2store ∧
    c2store.offsets = [34] ∧
    (c2data.drop 44).take 4 = [0, 0, 0, 34] ∧
    c2store.header.data = [0, 0, 0, 1, 0, 0, 0, 0, 0, 0, 0, 66, 0, 0, 0, 0] ∧
    beVal ((c2store.header.data.drop 8).take 4) = 66 ∧
    (34 : Nat) ≠ 66 := by decide

/-! ## Claim C7 — chain traversal -/

/-- Claim C7: for every well-formed record chain starting at `id`,
`traverse id` returns exactly the concatenation, in forward-pointer order, of
each visited block's filename records, preserving within-block order,
recursing on a nonzero forward pointer and stopping at forward pointer 0. -/
theorem traverse_yields_chain {s : DS_Store} {id : Nat} {names : List (List Nat)}
    (h : Chain s id names) : ∃ fuel, s.traverseFuel fuel id = .ok names :=
  chain_traverse h

/-- Witness for C7: a block with forward pointer 0 and record count 0 yields
the empty sequence, and a two-block chain yields both blocks' records in
order. -/
theorem traverse_yields_chain_witness :
    (∃ fuel, emptyChainStore.traverseFuel fuel 0 = .ok []) ∧
    (∃ fuel, twoChainStore.traverseFuel fuel 0 = .ok ([[97]] ++ [[98]])) := by
  constructor
  · exact traverse_yields_chain (Chain.last (by decide))
  · exact traverse_yields_chain
      (@Chain.step twoChainStore 0 1 [[97]] [[98]] (by decide) (by decide)
        (Chain.last (by decide)))

/-- The self-pointing block of `loopStore` makes `traverse` spin: every
amount of fuel is exhausted. -/
theorem loopStore_stuck : TraverseStuck loopStore 1 := by
  intro fuel
  induction fuel with
  | zero => rfl
  | succ f ih =>
    rw [traverseFuel_succ_of_blockRecords f
      (show loopStore.blockRecords 1 = some (1, []) by decide)]
    rw [if_pos (by norm_num), ih]

/-! ## Helper lemmas on the staging-index reader -/

/-- Closed form of `mmap.read`. -/
theorem mread_eq (st : GState) (n : Nat) :
    mread st n = ((st.buf.drop st.pos).take n,
      ⟨st.buf, st.pos + ((st.buf.drop st.pos).take n).length⟩) := rfl

/-- A read with enough bytes left returns exactly `n` bytes. -/
theorem read_take_len (buf : List Nat) (pos n : Nat) (h : pos + n ≤ buf.length) :
    ((buf.drop pos).take n).length = n := by
  simp [List.length_take, List.length_drop]
  omega

/-- Peeling one byte off a buffer at an in-bounds position. -/
theorem drop_cons_getD (buf : List Nat) (pos : Nat) (h : pos < buf.length) :
    buf.drop pos = buf.getD pos 1 :: buf.drop (pos + 1) := by
  rw [List.getD_eq_getElem buf 1 h]
  exact List.drop_eq_getElem_cons h

/-- `f.read(1)` at an in-bounds position. -/
theorem mread_one (buf : List Nat) (pos : Nat) (h : pos < buf.length) :
    mread ⟨buf, pos⟩ 1 = ([buf.getD pos 1], ⟨buf, pos + 1⟩) := by
  unfold mread
  rw [drop_cons_getD buf pos h]
  rfl

/-- Running `_read_name`'s zero-terminated loop when the first zero byte sits
`d` bytes ahead: the loop returns the bytes before the zero, consumes the
zero, and needs just over `d` fuel. -/
theorem readNameLoop_run (buf : List Nat) :
    ∀ (d pos : Nat) (acc : List (List Nat)) (fuel : Nat),
      (∀ j, j < d → buf.getD (pos + j) 1 ≠ 0) →
      pos + d < buf.length → buf.getD (pos + d) 1 = 0 → d < fuel →
      readNameLoop ⟨buf, pos⟩ acc fuel =
        .ok (acc.flatten ++ (buf.drop pos).take d, ⟨buf, pos + d + 1⟩) := by
  intro d
  induction d with
  | zero =>
    intro pos acc fuel _hnz hlt hz hf
    obtain ⟨f, rfl⟩ : ∃ f, fuel = f + 1 := ⟨fuel - 1, by omega⟩
    simp only [Nat.add_zero] at hlt hz
    simp only [readNameLoop, mread_one buf pos hlt]
    rw [hz, if_pos rfl]
    simp
  | succ d ih =>
    intro pos acc fuel hnz hlt hz hf
    obtain ⟨f, rfl⟩ : ∃ f, fuel = f + 1 := ⟨fuel - 1, by omega⟩
    have hpos : pos < buf.length := by omega
    simp only [readNameLoop, mread_one buf pos hpos]
    rw [if_neg (by simpa using hnz 0 (by omega))]
    rw [ih (pos + 1) (acc ++ [[buf.getD pos 1]]) f
      (fun j hj => by
        have := hnz (j + 1) (by omega)
        rwa [show pos + (j + 1) = pos + 1 + j by omega] at this)
      (by omega)
      (by rwa [show pos + 1 + d = pos + (d + 1) by omega])
      (by omega)]
    rw [drop_cons_getD buf pos hpos, List.take_succ_cons]
    simp [show pos + 1 + d + 1 = pos + (d + 1) + 1 by omega]

/-! ## Claim C3 — staging-index header errors -/

/-- Claim C3 (code-bug evidence): on a buffer with a bad 4-byte signature and
on one with an unsupported version, the decoder terminates the whole process
via `sys.exit(1)` (`Logger.check`), rather than surfacing a typed parsing
error to the caller; `gin.py`'s `ParsingError` is defined but never raised.
A process exit aborts every other input of a batch. -/
theorem gin_bad_header_exits :
    parseGin [88, 88, 88, 88] 9 = ([], some (.exit 1)) ∧
    parseGin ([68, 73, 82, 67] ++ [0, 0, 0, 9] ++ [0, 0, 0, 0]) 9 =
      ([], some (.exit 1)) := by
  decide

/-! ## Claim C8 — entry names -/

/-- Claim C8 counterexample: in the staging index `c8buf` the single entry's
flags word gives name length 5, but only two bytes remain in the buffer, so
the decoded name is the 2-byte `"ab"` — not exactly 5 raw bytes. -/
theorem name_truncated_cex :
    parseGin c8buf 9 =
      ([GItem.header [68, 73, 82, 67] 2 1,
        GItem.entry 1 0 0 0 0 0 0 0 0 0 0 (List.replicate 20 0) 5 [97, 98],
        GItem.checksum []], none) ∧
    (5 &&& 0xFFF) = 5 ∧ ([97, 98] : List Nat).length ≠ 5 := by decide

/-- Claim C8 (amended): the name length is the low 12 bits of the flags word;
if it is below `0xFFF` the name is the next `min(length, remaining)` raw
bytes — exactly `length` bytes whenever that many remain, fewer when the
buffer ends early; if it equals `0xFFF` and a zero byte occurs at or after
the position, bytes are read one at a time up to the first zero byte, which
is consumed but excluded from the name. -/
theorem readName_spec (st : GState) (flags fuel : Nat) :
    (flags &&& 0xFFF < 0xFFF →
      readName st flags fuel =
        .ok ((st.buf.drop st.pos).take (flags &&& 0xFFF),
          ⟨st.buf, st.pos + ((st.buf.drop st.pos).take (flags &&& 0xFFF)).length⟩) ∧
      ((st.buf.drop st.pos).take (flags &&& 0xFFF)).length =
        min (flags &&& 0xFFF) (st.buf.length - st.pos)) ∧
    (flags &&& 0xFFF = 0xFFF →
      ∀ d, (∀ j, j < d → st.buf.getD (st.pos + j) 1 ≠ 0) →
        st.pos + d < st.buf.length → st.buf.getD (st.pos + d) 1 = 0 → d < fuel →
        readName st flags fuel =
          .ok ((st.buf.drop st.pos).take d, ⟨st.buf, st.pos + d + 1⟩)) := by
  constructor
  · intro h
    constructor
    · unfold readName
      rw [if_pos h, mread_eq]
    · simp [List.length_take, List.length_drop]
  · intro h d h1 h2 h3 h4
    unfold readName
    rw [if_neg (by omega)]
    have hr := readNameLoop_run st.buf d st.pos [] fuel h1 h2 h3 h4
    simpa using hr

/-- Witness for C8 at two concrete entries. -/
theorem readName_spec_witness :
    readName ⟨[97, 98, 99], 0⟩ 2 9 = .ok ([97, 98], ⟨[97, 98, 99], 2⟩) ∧
    readName ⟨[65, 0], 0⟩ 0xFFF 9 = .ok ([65], ⟨[65, 0], 2⟩) := by
  constructor
  · have h := ((readName_spec ⟨[97, 98, 99], 0⟩ 2 9).1 (by decide)).1
    simpa using h
  · have h := (readName_spec ⟨[65, 0], 0⟩ 0xFFF 9).2 (by decide) 1
      (by intro j hj
          have hj0 : j = 0 := by omega
          subst hj0
          decide)
      (by decide) (by decide) (by norm_num)
    simpa using h

/-! ## Claim C5 — the extension loop -/

/-- Claim C5 counterexample: in the staging index `c5buf` (length 53) the
extension loop starts with 41 bytes remaining, and the single extension
declares size 100: its payload read consumes all remaining bytes, including
the final 20-byte checksum region (the marker bytes `7`), and the checksum
read afterwards returns no bytes at all. -/
theorem ext_reads_checksum_cex :
    parseExt ⟨c5buf, 12⟩ =
      .ok (GItem.extension [84, 82, 69, 69] 100
            (List.replicate 13 0 ++ List.replicate 20 7), ⟨c5buf, 53⟩) ∧
    c5buf.length = 53 ∧ (12 : Nat) < 53 - 20 ∧
    parseGin c5buf 9 =
      ([GItem.header [68, 73, 82, 67] 2 0,
        GItem.extension [84, 82, 69, 69] 100
          (List.replicate 13 0 ++ List.replicate 20 7),
        GItem.checksum []], none) := by decide

/-- Claim C5 (amended): the extension loop iterates exactly while at least 21
bytes remain after the current position; each extension read returns
`min(size, remaining)` payload bytes starting 8 bytes past the loop position —
truncated at the end of the buffer, but free to extend into the final
20-byte checksum region when the declared size reaches into it. -/
theorem ext_loop_spec (st : GState) (fuel : Nat) :
    (parseExts st (fuel + 1) = ([], st, none) ↔ st.buf.length < st.pos + 21) ∧
    (st.pos + 8 ≤ st.buf.length → asciiOK ((st.buf.drop st.pos).take 4) = true →
      parseExt st =
        .ok (GItem.extension ((st.buf.drop st.pos).take 4)
              (beVal ((st.buf.drop (st.pos + 4)).take 4))
              ((st.buf.drop (st.pos + 8)).take (beVal ((st.buf.drop (st.pos + 4)).take 4))),
          ⟨st.buf, st.pos + 8 +
            ((st.buf.drop (st.pos + 8)).take
              (beVal ((st.buf.drop (st.pos + 4)).take 4))).length⟩)) := by
  constructor
  · constructor
    · intro h
      by_contra hlt
      push_neg at hlt
      simp only [parseExts] at h
      rw [if_pos (by omega)] at h
      cases he : parseExt st with
      | error e => rw [he] at h; simp at h
      | ok p =>
        obtain ⟨it, st'⟩ := p
        rw [he] at h
        simp at h
    · intro h
      simp only [parseExts]
      rw [if_neg (by omega)]
  · intro h8 hA
    unfold parseExt readU32g
    simp only [mread_eq]
    rw [read_take_len st.buf st.pos 4 (by omega)]
    rw [if_pos hA]
    rw [read_take_len st.buf (st.pos + 4) 4 (by omega)]
    rw [if_pos rfl]

/-- Witness for C5: a state with exactly 21 bytes remaining runs the loop
(the guard iff), and a concrete extension read returns the truncated
payload. -/
theorem ext_loop_spec_witness :
    (parseExts ⟨List.replicate 21 0, 0⟩ 3 = ([], ⟨List.replicate 21 0, 0⟩, none) ↔
      (List.replicate 21 0 : List Nat).length < 0 + 21) ∧
    parseExt ⟨c5buf, 12⟩ =
      .ok (GItem.extension [84, 82, 69, 69] 100
            (List.replicate 13 0 ++ List.replicate 20 7), ⟨c5buf, 53⟩) := by
  constructor
  · exact (ext_loop_spec ⟨List.replicate 21 0, 0⟩ 2).1
  · have h := (ext_loop_spec ⟨c5buf, 12⟩ 0).2 (by decide) (by decide)
    rw [h]
    decide

/-! ## Claim C4 — termination of the decoders -/

/-- Claim C4 counterexample: two concrete inputs on which a decode neither
completes nor stops at a parsing error.  In `c4buf` the single entry's flags
word is `0x0FFF` and no zero byte follows: `_read_name`'s loop re-reads an
empty byte string at end of buffer forever (every fuel is exhausted, and the
whole decode of `c4buf` exhausts any fuel).  In `loopStore`, block 1's
forward pointer is 1 — itself — so `traverse 1` recurses forever. -/
theorem decode_diverges_cex :
    ReadNameStuck ⟨c4buf, 74⟩ ∧
    parseGin c4buf 64 = ([GItem.header [68, 73, 82, 67] 2 1], some .fuelOut) ∧
    TraverseStuck loopStore 1 ∧
    loopStore.blockRecords 1 = some (1, []) := by
  refine ⟨?_, by decide, loopStore_stuck, by decide⟩
  have hm : mread ⟨c4buf, 74⟩ 1 = ([], ⟨c4buf, 74⟩) := by decide
  intro fuel
  induction fuel with
  | zero => intro acc; rfl
  | succ f ih =>
    intro acc
    simp only [readNameLoop, hm]
    rw [if_neg (by decide)]
    exact ih (acc ++ [[]])

/-- Claim C4 (amended): the staging-index name loop terminates (with a
successful read) whenever a zero byte occurs at or after the current
position, and metadata-store `traverse` terminates whenever the forward
pointers form a finite chain ending at pointer 0; the counterexample above
shows both provisos are necessary. -/
theorem decode_loops_terminate :
    (∀ (buf : List Nat) (pos d : Nat) (acc : List (List Nat)) (fuel : Nat),
      (∀ j, j < d → buf.getD (pos + j) 1 ≠ 0) →
      pos + d < buf.length → buf.getD (pos + d) 1 = 0 → d < fuel →
      ∃ r, readNameLoop ⟨buf, pos⟩ acc fuel = .ok r) ∧
    (∀ (s : DS_Store) (id : Nat) (names : List (List Nat)),
      Chain s id names → ∃ fuel res, s.traverseFuel fuel id = .ok res) := by
  constructor
  · intro buf pos d acc fuel h1 h2 h3 h4
    exact ⟨_, readNameLoop_run buf d pos acc fuel h1 h2 h3 h4⟩
  · intro s id names h
    obtain ⟨f, hf⟩ := chain_traverse h
    exact ⟨f, names, hf⟩

/-- Witness for C4 at a concrete name read and a concrete chain. -/
theorem decode_loops_terminate_witness :
    (∃ r, readNameLoop ⟨[65, 0], 0⟩ [] 9 = .ok r) ∧
    (∃ fuel res, emptyChainStore.traverseFuel fuel 0 = .ok res) := by
  constructor
  · exact decode_loops_terminate.1 [65, 0] 0 1 [] 9
      (by intro j hj
          have hj0 : j = 0 := by omega
          subst hj0
          decide)
      (by decide) (by decide) (by norm_num)
  · exact decode_loops_terminate.2 emptyChainStore 0 [] (Chain.last (by decide))

end Dumpall
